import Mathlib

/-!
Verification development for the DataFrameProcessorFramework repository.

The repository drives a tabular-data library (pandas) from a notebook form:
`data_processor.py` holds `DataFrameProcessor` (cleaning operations with a
message log), `colab_processor_ui.py` holds the widget pipeline executed on
each click of the process button, and `drive_io_handler.py` exports the
result to a mounted drive.

The shallow embedding below models a table (`DataFrame`) as an index plus a
list of named columns of cells.  Cells (`Val`) are missing values, integers,
floats (modelled as rationals), strings, booleans or datetimes (modelled as
integer epochs).  Library calls that the code delegates to (fillna, dropna,
interpolate, astype, drop_duplicates, rename, projection, to_datetime,
set_index) are modelled as the `pd...` functions; every `DataFrameProcessor`
method is then translated statement by statement from `data_processor.py`
on top of them.  Fallible operations return an `OpResult` carrying the next
processor state (table plus log) and an optional propagated exception.

Modelling notes, fixed once here:
* numeric interpolation methods other than `pad` are collapsed to linear
  interpolation (the claims do not depend on the numerics of any single
  method); `pad` forward-fills, matching pandas;
* the library's datetime parser is modelled by `dtParse` (epochs and digit
  strings parse, other values fail); `NaN` maps to `NaT` without error,
  matching `pd.to_datetime`;
* dtype strings that appear only inside log messages are derived from the
  cell contents by `dtypeOf`;
* `json.loads` applied to the two JSON text areas of the UI is modelled by
  its outcome, an `Option` over string-to-string association lists (`none`
  is a `JSONDecodeError`).
-/

set_option autoImplicit false
set_option maxRecDepth 8000

namespace DataPrep

/-- Cell values of a table: missing (NaN/NaT), integers, floats (modelled as
rationals), strings, booleans, datetimes (modelled as integer epochs). -/
inductive Val where
  | na : Val
  | i : Int → Val
  | f : Rat → Val
  | s : String → Val
  | b : Bool → Val
  | dt : Int → Val
deriving DecidableEq, Repr

/-- A table: a row index plus named columns of cells, in column order. -/
structure DataFrame where
  index : List Val
  cols : List (String × List Val)
deriving DecidableEq, Repr

def emptyFrame : DataFrame := { index := [], cols := [] }

def colNames (df : DataFrame) : List String := df.cols.map Prod.fst

def getColD (df : DataFrame) (n : String) : List Val :=
  ((df.cols.find? (fun c => c.1 = n)).map Prod.snd).getD []

/-- Membership test for a column name, like `n in df.columns`. -/
def hasCol (df : DataFrame) (n : String) : Bool :=
  (df.cols.find? (fun c => c.1 = n)).isSome

/-- Column assignment `df[n] = vs`. -/
def setCol (df : DataFrame) (n : String) (vs : List Val) : DataFrame :=
  { df with cols := df.cols.map (fun c => if c.1 = n then (c.1, vs) else c) }

def isNa : Val → Bool
  | .na => true
  | _ => false

def countNaCol (vs : List Val) : Nat := (vs.filter isNa).length

/-- Total number of missing cells, `df.isna().sum().sum()`. -/
def countNaDf (df : DataFrame) : Nat := (df.cols.map (fun c => countNaCol c.2)).sum

/-- Missing cells restricted to the listed columns, `df[sub].isna().sum().sum()`. -/
def countNaSub (df : DataFrame) (sub : List String) : Nat :=
  (sub.map (fun n => countNaCol (getColD df n))).sum

/-! Library-call models (the pandas functions the code delegates to). -/

def ffillGo : Option Val → List Val → List Val
  | _, [] => []
  | carry, v :: rest =>
    if isNa v then (carry.getD Val.na) :: ffillGo carry rest
    else v :: ffillGo (some v) rest

/-- `Series.fillna(method='ffill')` on one column. -/
def pdFfillCol (vs : List Val) : List Val := ffillGo none vs

/-- `Series.fillna(method='bfill')` on one column. -/
def pdBfillCol (vs : List Val) : List Val := (pdFfillCol vs.reverse).reverse

/-- `Series.fillna(value)` on one column. -/
def pdFillnaValCol (x : Val) (vs : List Val) : List Val :=
  vs.map (fun v => if isNa v then x else v)

/-- Update every column whose name satisfies `p` by `g` (used both for whole
frames and for `df[sub] = df[sub].f()` subset assignments). -/
def mapColsIf (p : String → Bool) (g : List Val → List Val) (df : DataFrame) : DataFrame :=
  { df with cols := df.cols.map (fun c => if p c.1 then (c.1, g c.2) else c) }

/-- `DataFrame.fillna(method='ffill')`: a single direct library call on the table. -/
def pdFillnaFfill (df : DataFrame) : DataFrame :=
  mapColsIf (fun _ => true) pdFfillCol df

/-- `DataFrame.fillna(method='bfill')`: a single direct library call on the table. -/
def pdFillnaBfill (df : DataFrame) : DataFrame :=
  mapColsIf (fun _ => true) pdBfillCol df

/-- `DataFrame.fillna(value)` with a scalar value: a single direct library call. -/
def pdFillnaVal (x : Val) (df : DataFrame) : DataFrame :=
  mapColsIf (fun _ => true) (pdFillnaValCol x) df

/-- `DataFrame.fillna(value=dict)`: fill each column listed in the dictionary
with its own value, leave the others alone.  A single direct library call. -/
def pdFillnaDict (m : List (String × Val)) (df : DataFrame) : DataFrame :=
  { df with cols := df.cols.map (fun c =>
      match m.lookup c.1 with
      | some x => (c.1, pdFillnaValCol x c.2)
      | none => c) }

def filterIdxList (keep : Nat → Bool) (vs : List Val) : List Val :=
  (vs.enum.filter (fun p => keep p.1)).map Prod.snd

/-- Keep the row positions selected by `keep`, in index and in every column. -/
def filterRows (keep : Nat → Bool) (df : DataFrame) : DataFrame :=
  { index := filterIdxList keep df.index,
    cols := df.cols.map (fun c => (c.1, filterIdxList keep c.2)) }

def rowHasNa (df : DataFrame) (names : List String) (ix : Nat) : Bool :=
  names.any (fun n => isNa ((getColD df n).getD ix Val.na))

/-- `DataFrame.dropna()`: drop every row containing a missing value. -/
def pdDropnaRows (df : DataFrame) : DataFrame :=
  filterRows (fun ix => ! rowHasNa df (colNames df) ix) df

/-- `DataFrame.dropna(subset=sub)`: drop rows missing in one of the listed columns. -/
def pdDropnaRowsSub (sub : List String) (df : DataFrame) : DataFrame :=
  filterRows (fun ix => ! rowHasNa df sub ix) df

/-- `DataFrame.dropna(axis=1)`: drop every column containing a missing value.
The library call has no column-subset parameter. -/
def pdDropnaCols (df : DataFrame) : DataFrame :=
  { df with cols := df.cols.filter (fun c => ! c.2.any isNa) }

def toRatQ : Val → Option Rat
  | .i n => some (n : Rat)
  | .f q => some q
  | .b bb => some (if bb then 1 else 0)
  | _ => none

def knownPoints (vs : List Val) : List (Nat × Rat) :=
  vs.enum.filterMap (fun p => (toRatQ p.2).map (fun q => (p.1, q)))

/-- Value interpolated at a missing position: linear between the neighbouring
known points, flat after the last known point, missing before the first. -/
def interpNaAt (ks : List (Nat × Rat)) (ix : Nat) : Val :=
  match (ks.filter (fun k => k.1 ≤ ix)).getLast?, (ks.filter (fun k => ix ≤ k.1)).head? with
  | some kb, some ka =>
      Val.f (kb.2 + (ka.2 - kb.2) * (((ix : Rat) - (kb.1 : Rat)) / ((ka.1 : Rat) - (kb.1 : Rat))))
  | some kb, none => Val.f kb.2
  | none, _ => Val.na

/-- `Series.interpolate(method=...)` on one column. -/
def pdInterpCol (method : String) (vs : List Val) : List Val :=
  if method = ("pad") then pdFfillCol vs
  else
    let ks := knownPoints vs
    vs.enum.map (fun p => if isNa p.2 then interpNaAt ks p.1 else p.2)

/-- `DataFrame.interpolate(method=...)`: a single direct library call on the table. -/
def pdInterpDf (method : String) (df : DataFrame) : DataFrame :=
  mapColsIf (fun _ => true) (pdInterpCol method) df

def colNums (vs : List Val) : List Rat := vs.filterMap toRatQ

/-- Column mean, skipping missing values; missing when no numeric cell exists. -/
def meanValOfCol (vs : List Val) : Val :=
  let ns := colNums vs
  if ns.isEmpty then Val.na else Val.f (ns.sum / (ns.length : Rat))

def insSorted (x : Rat) : List Rat → List Rat
  | [] => [x]
  | y :: ys => if x ≤ y then x :: y :: ys else y :: insSorted x ys

def sortRats : List Rat → List Rat
  | [] => []
  | x :: xs => insSorted x (sortRats xs)

/-- Column median, skipping missing values. -/
def medianValOfCol (vs : List Val) : Val :=
  let ns := sortRats (colNums vs)
  let k := ns.length
  if k = 0 then Val.na
  else if k % 2 = 1 then Val.f (ns.getD (k / 2) 0)
  else Val.f ((ns.getD (k / 2 - 1) 0 + ns.getD (k / 2) 0) / 2)

/-- `pd.api.types.is_numeric_dtype` on a column: object (string-bearing) and
datetime columns are not numeric, everything else is. -/
def isNumericCol (vs : List Val) : Bool :=
  vs.all (fun v => match v with
    | .s _ => false
    | .dt _ => false
    | _ => true)

/-- The `keep` parameter of `drop_duplicates`: first or last occurrence, or
drop every duplicated row (`keep=False`). -/
inductive KeepOpt where
  | first
  | last
  | dropAll
deriving DecidableEq, Repr

def rowKey (df : DataFrame) (names : List String) (ix : Nat) : List Val :=
  names.map (fun n => (getColD df n).getD ix Val.na)

/-- `DataFrame.drop_duplicates(subset=..., keep=...)`: a single direct library call. -/
def pdDropDuplicates (sub : Option (List String)) (keep : KeepOpt) (df : DataFrame) : DataFrame :=
  let names := sub.getD (colNames df)
  let keys := (List.range df.index.length).map (rowKey df names)
  filterRows (fun ix =>
    match keep with
    | .first => ! (keys.take ix).contains (keys.getD ix [])
    | .last => ! (keys.drop (ix + 1)).contains (keys.getD ix [])
    | .dropAll => keys.count (keys.getD ix []) = 1) df

/-- `DataFrame.rename(columns=m)`: a single direct library call; names absent
from the mapping are kept. -/
def pdRename (m : List (String × String)) (df : DataFrame) : DataFrame :=
  { df with cols := df.cols.map (fun c =>
      match m.lookup c.1 with
      | some nw => (nw, c.2)
      | none => c) }

/-- `df[names]`: project onto the listed columns, in the listed order. -/
def pdProject (names : List String) (df : DataFrame) : DataFrame :=
  { index := df.index,
    cols := names.filterMap (fun n =>
      (df.cols.find? (fun c => c.1 = n)).map (fun c => (n, c.2))) }

/-! String helpers.  Python string methods (`strip`, `split`, `int`, `float`,
`endswith`) are modelled on the character list of the string, which the
kernel can evaluate (the iterator-based library versions cannot). -/

def trimChars (cs : List Char) : List Char :=
  ((cs.dropWhile Char.isWhitespace).reverse.dropWhile Char.isWhitespace).reverse

/-- Python `str.strip()`. -/
def strTrim (str : String) : String := String.mk (trimChars str.data)

def splitCharGo (sep : Char) (acc : List Char) : List Char → List (List Char)
  | [] => [acc.reverse]
  | c :: cs => if c = sep then acc.reverse :: splitCharGo sep [] cs
               else splitCharGo sep (c :: acc) cs

/-- Python `str.split(sep)` for a one-character separator. -/
def strSplitOnChar (sep : Char) (str : String) : List String :=
  (splitCharGo sep [] str.data).map String.mk

def startsWithChars : List Char → List Char → Bool
  | [], _ => true
  | _ :: _, [] => false
  | a :: as, b :: bs => a = b && startsWithChars as bs

/-- Whether `whole` begins with the characters of `pre` (used to state that a
saved path lies under the base path). -/
def strStartsWith (pre whole : String) : Bool :=
  startsWithChars pre.data whole.data

/-- Numeric value of a digit list. -/
def digitsVal (cs : List Char) : Nat :=
  cs.foldl (fun acc c => acc * 10 + (c.toNat - 48)) 0

/-- Python `int(text)`: an optional minus sign then digits. -/
def strToIntQ (str : String) : Option Int :=
  match str.data with
  | [] => none
  | c :: rest =>
    if c = ('-') then
      if rest ≠ [] ∧ rest.all Char.isDigit then some (-(digitsVal rest : Int)) else none
    else
      if (c :: rest).all Char.isDigit then some ((digitsVal (c :: rest) : Int)) else none

/-- The library's datetime parser on a single cell (see the modelling notes). -/
def dtParse : Val → Option Int
  | .dt t => some t
  | .i n => some n
  | .f q => if q.den = 1 then some q.num else none
  | .s str => if str.data ≠ [] ∧ str.data.all Char.isDigit
              then some ((digitsVal str.data : Nat) : Int) else none
  | .b _ => none
  | .na => none

/-- `pd.to_datetime(col, errors=...)`: missing cells become `NaT`; on a parse
failure, `raise` raises, `coerce` substitutes `NaT`, `ignore` returns the
column unchanged. -/
def pdToDatetimeCol (errors : String) (vs : List Val) : Except String (List Val) :=
  let parsed := vs.map (fun v => if isNa v then some Val.na else (dtParse v).map Val.dt)
  if parsed.all Option.isSome then Except.ok (parsed.map (fun o => o.getD Val.na))
  else if errors = ("coerce") then Except.ok (parsed.map (fun o => o.getD Val.na))
  else if errors = ("ignore") then Except.ok vs
  else Except.error ("datetime parse failed")

/-- `df.set_index(n)` after `df[n]` holds `vs`: the column becomes the index. -/
def pdSetIndex (n : String) (vs : List Val) (df : DataFrame) : DataFrame :=
  { index := vs, cols := df.cols.filter (fun c => c.1 ≠ n) }

/-! Casting (`astype` and friends), used by `convert_data_types`. -/

/-- Truncation toward zero, like Python `int()` applied to a float. -/
def truncRat (q : Rat) : Int := if 0 ≤ q then q.floor else q.ceil

/-- Python `float(text)` restricted to plain decimal literals (an optional
minus sign, digits, an optional dot): scientific notation is out of scope of
the model. -/
def parseFloatQ (t : String) : Option Rat :=
  let cs0 := t.data
  let neg : Bool := match cs0 with
    | c :: _ => c = ('-')
    | [] => false
  let body := if neg then cs0.drop 1 else cs0
  match splitCharGo ('.') [] body with
  | [a] =>
    if a ≠ [] ∧ a.all Char.isDigit then
      some (if neg then -((digitsVal a : Nat) : Rat) else ((digitsVal a : Nat) : Rat))
    else none
  | [a, b] =>
    if (a ++ b) ≠ [] ∧ (a ++ b).all Char.isDigit then
      let mag : Rat := ((digitsVal a : Nat) : Rat)
        + ((digitsVal b : Nat) : Rat) / ((10 : Rat) ^ b.length)
      some (if neg then -mag else mag)
    else none
  | _ => none

/-- String form of a cell, as `astype(str)` renders it (`NaN` prints as nan). -/
def valToString : Val → String
  | .na => ("nan")
  | .i n => toString n
  | .f q => toString q
  | .s str => str
  | .b bb => if bb then ("True") else ("False")
  | .dt t => toString t

/-- Cast one cell to the target dtype; mirrors `astype` cell semantics.
The nullable `Int64` dtype accepts missing cells where `int` raises. -/
def castVal (target : String) (v : Val) : Except String Val :=
  if target = ("float") then
    match v with
    | .na => Except.ok Val.na
    | .i n => Except.ok (Val.f (n : Rat))
    | .f q => Except.ok (Val.f q)
    | .b bb => Except.ok (Val.f (if bb then 1 else 0))
    | .s str =>
      match parseFloatQ str with
      | some q => Except.ok (Val.f q)
      | none => Except.error ("could not convert string to float")
    | .dt t => Except.ok (Val.f (t : Rat))
  else if target = ("int") ∨ target = ("Int64") then
    match v with
    | .na => if target = ("Int64") then Except.ok Val.na
             else Except.error ("cannot convert missing value to int")
    | .i n => Except.ok (Val.i n)
    | .f q => Except.ok (Val.i (truncRat q))
    | .b bb => Except.ok (Val.i (if bb then 1 else 0))
    | .s str =>
      match strToIntQ str with
      | some n => Except.ok (Val.i n)
      | none => Except.error ("invalid literal for int")
    | .dt t => Except.ok (Val.i t)
  else if target = ("str") then Except.ok (Val.s (valToString v))
  else if target = ("category") then Except.ok v
  else if target = ("bool") then
    match v with
    | .na => Except.ok (Val.b true)
    | .i n => Except.ok (Val.b (n ≠ 0))
    | .f q => Except.ok (Val.b (q ≠ 0))
    | .s str => Except.ok (Val.b (str ≠ ("")))
    | .b bb => Except.ok (Val.b bb)
    | .dt _ => Except.ok (Val.b true)
  else Except.error ("unsupported dtype")

/-- `Series.astype(target)` on one column, raising on the first bad cell. -/
def astypeCol (target : String) (vs : List Val) : Except String (List Val) :=
  let rs := vs.map (castVal target)
  if rs.all (fun r => r.toOption.isSome) then
    Except.ok (rs.map (fun r => (r.toOption).getD Val.na))
  else Except.error ("cast failed")

/-- `Series.astype(target, errors=errors)`: with `errors='ignore'` a failing
cast returns the column unchanged instead of raising. -/
def astypeWith (errors : String) (target : String) (vs : List Val) : Except String (List Val) :=
  match astypeCol target vs with
  | Except.ok r => Except.ok r
  | Except.error e => if errors = ("ignore") then Except.ok vs else Except.error e

/-- Dtype string of a column as derived from its cells (log messages only). -/
def dtypeOf (vs : List Val) : String :=
  if vs.any (fun v => match v with | .s _ => true | _ => false) then ("object")
  else if vs.any (fun v => match v with | .dt _ => true | _ => false) then ("datetime64")
  else if vs.any (fun v => match v with | .f _ => true | _ => false) then ("float64")
  else if vs.any isNa then ("float64")
  else if vs.any (fun v => match v with | .b _ => true | _ => false) then ("bool")
  else ("int64")

/-! The `DataFrameProcessor` class of `data_processor.py`: a working copy of
the frame plus the list of logged messages (`self.df`, `self.log_messages`). -/

structure PState where
  df : DataFrame
  log : List String
deriving DecidableEq, Repr

/-- Result of one processor method: the state it leaves behind (the frame may
be partially modified when an exception escapes mid-loop) and the optional
exception it raises. -/
structure OpResult where
  st : PState
  err : Option String
deriving DecidableEq, Repr

/-- The `_log` method: print and append to `log_messages`. -/
def pLog (st : PState) (m : String) : PState :=
  { st with log := st.log ++ [m] }

/-- The constructor: keep a copy of the input frame and log the copy. -/
def procInit (df : DataFrame) : PState :=
  { df := df, log := [("created a working copy of the input frame")] }

/-- `set_datetime_index`: convert the named column with `to_datetime`, set it
as the index, log; a missing column or a parse failure raises after logging.
The `inferFmt` flag is a parsing hint with no effect in the model. -/
def set_datetime_index (timeCol : String) (errors : String) (inferFmt : Bool)
    (st : PState) : OpResult :=
  let _ := inferFmt
  if ! hasCol st.df timeCol then
    { st := pLog st (("error while setting the datetime index: column not found ") ++ timeCol),
      err := some ("KeyError") }
  else
    match pdToDatetimeCol errors (getColD st.df timeCol) with
    | Except.error e =>
      { st := pLog st (("error while setting the datetime index: ") ++ e), err := some e }
    | Except.ok vs =>
      let df2 := pdSetIndex timeCol vs (setCol st.df timeCol vs)
      let st2 := pLog { st with df := df2 }
        (("column converted to datetime and set as the index: ") ++ timeCol)
      let st3 := if st.df.index.length ≠ df2.index.length
                 then pLog st2 ("warning: the frame size changed") else st2
      { st := st3, err := none }

def validStrategies : List String :=
  [("ffill"), ("bfill"), ("dropna_rows"), ("dropna_cols"), ("interpolate"),
   ("fill_constant"), ("fill_mean"), ("fill_median"), ("fill_zero")]

/-- Python truthiness of the `subset_cols` argument: `None` and the empty
list both disable the subset. -/
def subActive (subsetCols : Option (List String)) : Option (List String) :=
  match subsetCols with
  | some (c :: cs) => some (c :: cs)
  | _ => none

/-- Fill each listed numeric column with its own statistic (the per-column
loop of the `fill_mean` and `fill_median` strategies). -/
def fillStatTargets (targets : List String) (stat : List Val → Val) (df : DataFrame) : DataFrame :=
  { df with cols := df.cols.map (fun c =>
      if targets.contains c.1 && isNumericCol c.2
      then (c.1, pdFillnaValCol (stat c.2) c.2) else c) }

/-- The per-column statistics dictionary (column name to column statistic
over the numeric columns), the value argument of the single library call
`df.fillna(value=dict)` that the per-column mean and median loops amount
to. -/
def statDict (stat : List Val → Val) (df : DataFrame) : List (String × Val) :=
  df.cols.filterMap (fun c => if isNumericCol c.2 then some (c.1, stat c.2) else none)

/-- The strategy dispatch of `handle_missing_values` (lines 144 to 210):
every branch delegates to the corresponding library call, applied to the
whole table or to the subset columns, except `dropna_cols` with a subset
which computes a custom keep-column list. -/
def hmvApply (strategy : String) (sub : Option (List String)) (fillValue : Option Val)
    (method : String) (df : DataFrame) : DataFrame :=
  if strategy = ("ffill") then
    match sub with
    | some l => mapColsIf (fun n => l.contains n) pdFfillCol df
    | none => pdFillnaFfill df
  else if strategy = ("bfill") then
    match sub with
    | some l => mapColsIf (fun n => l.contains n) pdBfillCol df
    | none => pdFillnaBfill df
  else if strategy = ("dropna_rows") then
    match sub with
    | some l => pdDropnaRowsSub l df
    | none => pdDropnaRows df
  else if strategy = ("dropna_cols") then
    match sub with
    | some l =>
      let keepNames := (colNames df).filter
        (fun c => (! l.contains c) || (! (getColD df c).any isNa))
      pdProject keepNames df
    | none => pdDropnaCols df
  else if strategy = ("interpolate") then
    match sub with
    | some l => mapColsIf (fun n => l.contains n) (pdInterpCol method) df
    | none => pdInterpDf method df
  else if strategy = ("fill_constant") then
    let v := fillValue.getD Val.na
    match sub with
    | some l => mapColsIf (fun n => l.contains n) (pdFillnaValCol v) df
    | none => pdFillnaVal v df
  else if strategy = ("fill_mean") then
    fillStatTargets (sub.getD (colNames df)) meanValOfCol df
  else if strategy = ("fill_median") then
    fillStatTargets (sub.getD (colNames df)) medianValOfCol df
  else if strategy = ("fill_zero") then
    match sub with
    | some l => mapColsIf (fun n => l.contains n) (pdFillnaValCol (Val.i 0)) df
    | none => pdFillnaVal (Val.i 0) df
  else df

/-- Missing-cell count after the operation (lines 213 to 220). -/
def hmvMissingAfter (strategy : String) (sub : Option (List String)) (df2 : DataFrame) : Nat :=
  if strategy = ("dropna_rows") ∨ strategy = ("dropna_cols") then
    match sub with
    | some l => if l.all (fun c => hasCol df2 c) then countNaSub df2 l else countNaDf df2
    | none => countNaDf df2
  else
    match sub with
    | some l => countNaSub df2 l
    | none => countNaDf df2

/-- Core of `handle_missing_values` once the strategy and the subset are
validated: the `fill_constant` strategy without a fill value raises, every
other path applies the dispatch and logs two messages. -/
def hmvCore (strategy : String) (sub : Option (List String)) (fillValue : Option Val)
    (method : String) (st : PState) : OpResult :=
  if strategy = ("fill_constant") ∧ fillValue = none then
    { st := pLog st ("error while handling missing values: fill value required"),
      err := some ("ValueError") }
  else
    let mb := match sub with
      | some l => countNaSub st.df l
      | none => countNaDf st.df
    let df2 := hmvApply strategy sub fillValue method st.df
    let ma := hmvMissingAfter strategy sub df2
    let st2 := pLog { st with df := df2 }
      (("handled missing values with strategy ") ++ strategy)
    let st3 := pLog st2
      (("missing cells before ") ++ toString mb ++ (" and after ") ++ toString ma)
    { st := st3, err := none }

/-- `handle_missing_values`: validate the strategy, then the subset columns,
then dispatch; every raise happens before the frame is touched. -/
def handle_missing_values (strategy : String) (subsetCols : Option (List String))
    (fillValue : Option Val) (method : String) (st : PState) : OpResult :=
  if ! validStrategies.contains strategy then
    { st := pLog st ("error while handling missing values: unsupported strategy"),
      err := some ("ValueError") }
  else
    match subActive subsetCols with
    | some l =>
      if l.any (fun c => ! hasCol st.df c) then
        { st := pLog st ("error while handling missing values: column not found"),
          err := some ("ValueError") }
      else hmvCore strategy (some l) fillValue method st
    | none => hmvCore strategy none fillValue method st

/-- The per-column conversion of `convert_data_types` (lines 253 to 282):
each supported target is one library cast, where an `int` target picks the
nullable `Int64` cast when the column has missing cells, and a `datetime`
target delegates to `to_datetime`. -/
def innerCast (errors : String) (target : String) (vs : List Val) : Except String (List Val) :=
  if target = ("float") then astypeWith errors ("float") vs
  else if target = ("int") then
    if vs.any isNa then astypeWith errors ("Int64") vs else astypeWith errors ("int") vs
  else if target = ("str") then astypeWith errors ("str") vs
  else if target = ("category") then astypeWith errors ("category") vs
  else if target = ("bool") then astypeWith errors ("bool") vs
  else if target = ("datetime") then pdToDatetimeCol errors vs
  else Except.error ("unsupported dtype ")

/-- One iteration of the conversion loop: a propagating exception skips the
rest; a missing column is skipped (logged) under `errors='ignore'`; a failed
cast raises under `errors='raise'` and is skipped (logged) otherwise. -/
def convStep (errors : String) (acc : DataFrame × List String × Option String)
    (item : String × String) : DataFrame × List String × Option String :=
  match acc with
  | (df, lg, some e) => (df, lg, some e)
  | (df, lg, none) =>
    if ! hasCol df item.1 then
      if errors = ("ignore") then
        (df, lg ++ [("column not found, skipping ") ++ item.1], none)
      else (df, lg, some ("KeyError"))
    else
      match innerCast errors item.2 (getColD df item.1) with
      | Except.ok r =>
        (setCol df item.1 r, lg ++ [("converted the type of column ") ++ item.1], none)
      | Except.error e =>
        if errors = ("raise") then (df, lg, some (("ValueError ") ++ e))
        else (df, lg ++ [("could not convert column ") ++ item.1 ++ (", skipping")], none)

/-- `convert_data_types`: check the listed columns exist (under
`errors='raise'`), then convert column by column; an exception escaping the
loop leaves the columns already converted in place. -/
def convert_data_types (columnTypes : List (String × String)) (errors : String)
    (st : PState) : OpResult :=
  let missing := (columnTypes.map Prod.fst).filter (fun c => ! hasCol st.df c)
  if missing ≠ [] ∧ errors = ("raise") then
    { st := pLog st ("error while converting data types: columns not found"),
      err := some ("KeyError") }
  else
    match columnTypes.foldl (convStep errors) (st.df, [], none) with
    | (df2, lg, none) => { st := { df := df2, log := st.log ++ lg }, err := none }
    | (df2, lg, some e) =>
      { st := { df := df2,
                log := st.log ++ lg ++ [("error while converting data types ") ++ e] },
        err := some e }

/-- `remove_duplicate_rows`: validate the subset, delegate to
`drop_duplicates`, log the number of dropped rows. -/
def remove_duplicate_rows (subset : Option (List String)) (keep : KeepOpt)
    (st : PState) : OpResult :=
  match subActive subset with
  | some l =>
    if l.any (fun c => ! hasCol st.df c) then
      { st := pLog st ("error while removing duplicate rows: column not found"),
        err := some ("ValueError") }
    else
      let df2 := pdDropDuplicates (some l) keep st.df
      { st := pLog { st with df := df2 }
          (("removed ") ++ toString (st.df.index.length - df2.index.length)
            ++ (" duplicate rows")),
        err := none }
  | none =>
    let df2 := pdDropDuplicates none keep st.df
    { st := pLog { st with df := df2 }
        (("removed ") ++ toString (st.df.index.length - df2.index.length)
          ++ (" duplicate rows")),
      err := none }

/-- `rename_columns`: every key must name an existing column, then delegate
to the library rename. -/
def rename_columns (renameMap : List (String × String)) (st : PState) : OpResult :=
  let missing := (renameMap.map Prod.fst).filter (fun c => ! hasCol st.df c)
  if missing ≠ [] then
    { st := pLog st ("error while renaming columns: columns not found"),
      err := some ("KeyError") }
  else
    { st := pLog { st with df := pdRename renameMap st.df } ("renamed columns"),
      err := none }

/-- `select_columns`: every listed column must exist, then project; a second
message lists the dropped columns when there are any. -/
def select_columns (columnsToKeep : List String) (st : PState) : OpResult :=
  let missing := columnsToKeep.filter (fun c => ! hasCol st.df c)
  if missing ≠ [] then
    { st := pLog st ("error while selecting columns: columns not found"),
      err := some ("ValueError") }
  else
    let removed := (colNames st.df).filter (fun c => ! columnsToKeep.contains c)
    let st2 := pLog { st with df := pdProject columnsToKeep st.df } ("kept the selected columns")
    let st3 := if removed ≠ [] then pLog st2 ("dropped the other columns") else st2
    { st := st3, err := none }

/-- A Python value returned by a user-supplied transform: a frame, or
anything else. -/
inductive PyVal where
  | frame : DataFrame → PyVal
  | other : PyVal
deriving DecidableEq, Repr

/-- `apply_custom_function`: call the user function on the frame; a raised
exception or a non-frame result raises after logging, otherwise the frame is
replaced by the result and the changes are logged. -/
def apply_custom_function (func : DataFrame → Except String PyVal) (st : PState) : OpResult :=
  match func st.df with
  | Except.error e =>
    { st := pLog st (("error while applying the custom function: ") ++ e), err := some e }
  | Except.ok PyVal.other =>
    { st := pLog st ("error while applying the custom function: the result is not a frame"),
      err := some ("ValueError") }
  | Except.ok (PyVal.frame r) =>
    let st1 : PState := { st with df := r }
    let st2 := if (st.df.index.length, st.df.cols.length) ≠ (r.index.length, r.cols.length)
               then pLog st1 ("the frame shape changed") else st1
    let commonChanged := (colNames st.df).filter (fun c =>
      hasCol r c && (dtypeOf (getColD st.df c) ≠ dtypeOf (getColD r c)))
    let st3 := if commonChanged ≠ [] then pLog st2 ("column dtypes changed") else st2
    let addedC := (colNames r).filter (fun c => ! (colNames st.df).contains c)
    let st4 := if addedC ≠ [] then pLog st3 ("columns were added") else st3
    let removedC := (colNames st.df).filter (fun c => ! (colNames r).contains c)
    let st5 := if removedC ≠ [] then pLog st4 ("columns were removed") else st4
    { st := pLog st5 ("the custom function was applied"), err := none }

/-- `get_processed_df`: log and return a copy of the processed frame. -/
def get_processed_df (st : PState) : DataFrame × PState :=
  (st.df, pLog st ("returning the processed frame"))

/-- `get_log_messages`: a copy of the log, in logging order. -/
def get_log_messages (st : PState) : List String := st.log

/-! The UI layer of `colab_processor_ui.py`: the widget values read by
`_on_process_button_clicked`, and the click handler itself. -/

/-- The widget values the click handler reads.  The two JSON text areas are
modelled by the outcome of `json.loads` on their text (`none` is a
`JSONDecodeError`); every other field is the raw widget value. -/
structure UISettings where
  cbDatetime : Bool
  timeColText : String
  timeErrors : String
  inferFmt : Bool
  cbMissing : Bool
  missingStrategy : String
  fillValueText : String
  interpMethod : String
  missingSubsetText : String
  cbConvert : Bool
  columnTypesJson : Option (List (String × String))
  convertErrors : String
  cbDup : Bool
  dupKeep : KeepOpt
  dupSubsetText : String
  cbRename : Bool
  renameMapJson : Option (List (String × String))
  cbSelect : Bool
  columnsToKeepText : String
  savePref : String
  saveFormat : String
  includeTimestamp : Bool
deriving DecidableEq, Repr

/-- Comma-separated column list: empty text means no subset, otherwise the
stripped fragments (lines 382 to 383, 435 to 436, 463 to 465). -/
def splitColsText (t : String) : Option (List String) :=
  let tt := strTrim t
  if tt = ("") then none else some ((strSplitOnChar (',') tt).map strTrim)

/-- The fill-value text parsed as the handler does (lines 389 to 398): with a
dot try float, otherwise try int, and fall back to the string itself. -/
def parseFillValue (t0 : String) : Val :=
  let t := strTrim t0
  if t.data.contains ('.') then
    match parseFloatQ t with
    | some q => Val.f q
    | none => Val.s t
  else
    match strToIntQ t with
    | some n => Val.i n
    | none => Val.s t

/-- The steps a click can execute, in pipeline order, plus the export. -/
inductive StepId where
  | datetimeStep
  | missingStep
  | convertStep
  | dedupStep
  | renameStep
  | selectStep
  | customStep
  | exportStep
deriving DecidableEq, Repr

/-- External facts the export depends on: whether the drive mount check
succeeds, whether the file write succeeds, and the current clock stamp. -/
structure SaveEnv where
  driveMounted : Bool
  writeOk : Bool
  nowStamp : String
deriving DecidableEq, Repr

def validFormats : List String := [("parquet"), ("csv"), ("feather"), ("pickle")]

/-- `os.path.join(base, fn)` for the two-component POSIX case the handler
builds: an absolute second component (one beginning with a path separator)
discards the base; otherwise the parts are joined, inserting a separator
unless the base is empty or already ends with one. -/
def pathJoin (base fn : String) : String :=
  if fn.data.head? = some ('/') then fn
  else if base = ("") then fn
  else if base.data.getLast? = some ('/') then base ++ fn
  else base ++ (("/") ++ fn)

def saveFilename (pref fmt stamp : String) : String :=
  if stamp ≠ ("") then pref ++ ("_") ++ stamp ++ (".") ++ fmt
  else pref ++ (".") ++ fmt

/-- `DriveIOHandler.save_dataframe` (lines 79 to 167): an unmounted drive
returns the empty string; an unsupported format raises a `ValueError` that
the outer handler turns into the empty string; otherwise the file name is
the prefix, optionally the timestamp, and the format extension under the
base path, and a failing write also becomes the empty string. -/
def save_dataframe (env : SaveEnv) (basePath : String) (pref : String)
    (fmt : String) (includeTs : Bool) : String :=
  if ! env.driveMounted then ("")
  else if ! validFormats.contains fmt then ("")
  else
    let stamp := if includeTs then env.nowStamp else ("")
    let full := pathJoin basePath (saveFilename pref fmt stamp)
    if env.writeOk then full else ("")

def basePathDefault : String := ("/content/drive/MyDrive/processed_data/")

/-- Datetime-index step of the click handler (lines 360 to 374): invoked
exactly when its checkbox is checked; an exception is caught and printed. -/
def stepDatetime (s : UISettings) (st : PState) : PState × List StepId :=
  if s.cbDatetime then
    ((set_datetime_index (strTrim s.timeColText) s.timeErrors s.inferFmt st).st,
     [StepId.datetimeStep])
  else (st, [])

/-- Missing-values step (lines 376 to 413): the fill value is parsed only for
`fill_constant`, the interpolation method is read only for `interpolate`. -/
def stepMissing (s : UISettings) (st : PState) : PState × List StepId :=
  if s.cbMissing then
    ((handle_missing_values s.missingStrategy (splitColsText s.missingSubsetText)
        (if s.missingStrategy = ("fill_constant")
         then some (parseFillValue s.fillValueText) else none)
        (if s.missingStrategy = ("interpolate") then s.interpMethod else ("linear"))
        st).st,
     [StepId.missingStep])
  else (st, [])

/-- Type-conversion step (lines 415 to 429): a `JSONDecodeError` is printed
and the processor method is not invoked. -/
def stepConvert (s : UISettings) (st : PState) : PState × List StepId :=
  if s.cbConvert then
    match s.columnTypesJson with
    | some ct => ((convert_data_types ct s.convertErrors st).st, [StepId.convertStep])
    | none => (st, [])
  else (st, [])

/-- De-duplication step (lines 431 to 446). -/
def stepDedup (s : UISettings) (st : PState) : PState × List StepId :=
  if s.cbDup then
    ((remove_duplicate_rows (splitColsText s.dupSubsetText) s.dupKeep st).st,
     [StepId.dedupStep])
  else (st, [])

/-- Renaming step (lines 448 to 457): a `JSONDecodeError` skips the call. -/
def stepRename (s : UISettings) (st : PState) : PState × List StepId :=
  if s.cbRename then
    match s.renameMapJson with
    | some rm => ((rename_columns rm st).st, [StepId.renameStep])
    | none => (st, [])
  else (st, [])

/-- Column-selection step (lines 459 to 471): an empty column list prints a
notice and skips the call even when the checkbox is checked. -/
def stepSelect (s : UISettings) (st : PState) : PState × List StepId :=
  if s.cbSelect then
    match splitColsText s.columnsToKeepText with
    | some cols => ((select_columns cols st).st, [StepId.selectStep])
    | none => (st, [])
  else (st, [])

/-- What one click produces: the processed frame, the executed steps in
order, the path returned by the export, and the processor log. -/
structure ClickResult where
  finalDf : DataFrame
  trace : List StepId
  savedPath : String
  plog : List String
deriving DecidableEq, Repr

/-- `_on_process_button_clicked` (lines 343 to 505): build a fresh processor
from a copy of the raw frame, run the six guarded steps in their fixed
order, fetch the processed frame, and export it. -/
def clickOnce (s : UISettings) (raw : DataFrame) (env : SaveEnv) : ClickResult :=
  let p0 := procInit raw
  let r1 := stepDatetime s p0
  let r2 := stepMissing s r1.1
  let r3 := stepConvert s r2.1
  let r4 := stepDedup s r3.1
  let r5 := stepRename s r4.1
  let r6 := stepSelect s r5.1
  let pr := get_processed_df r6.1
  let path := save_dataframe env basePathDefault (strTrim s.savePref) s.saveFormat
    s.includeTimestamp
  { finalDf := pr.1,
    trace := r1.2 ++ (r2.2 ++ (r3.2 ++ (r4.2 ++ (r5.2 ++ (r6.2 ++ [StepId.exportStep]))))),
    savedPath := path,
    plog := pr.2.log }

/-- A singleton step list guarded by a boolean. -/
def guardList (c : Bool) (x : StepId) : List StepId :=
  if c then [x] else []

/-- The declarative description of the steps one click executes: each
checkbox gates its step, and additionally type conversion and renaming need
their JSON to parse while column selection needs a non-empty column list. -/
def stepsOf (s : UISettings) : List StepId :=
  guardList s.cbDatetime StepId.datetimeStep ++
  guardList s.cbMissing StepId.missingStep ++
  guardList (s.cbConvert && s.columnTypesJson.isSome) StepId.convertStep ++
  guardList s.cbDup StepId.dedupStep ++
  guardList (s.cbRename && s.renameMapJson.isSome) StepId.renameStep ++
  guardList (s.cbSelect && (splitColsText s.columnsToKeepText).isSome) StepId.selectStep

/-- The mutable state of `DataProcessorUI` that survives across clicks. -/
structure UIObj where
  rawDf : DataFrame
  processedDf : Option DataFrame
deriving DecidableEq, Repr

/-- One button click as a transition on the UI object: the raw frame is kept,
`processed_df` is replaced by the result of processing a fresh copy. -/
def clickUI (s : UISettings) (env : SaveEnv) (u : UIObj) : UIObj :=
  { rawDf := u.rawDf, processedDf := some (clickOnce s u.rawDf env).finalDf }

/-! The show/hide machine of `_setup_dynamic_widgets` (lines 237 to 341):
checkbox values, the strategy dropdown value, and the display flag of every
parameter widget. -/

structure WState where
  cbDt : Bool
  cbMiss : Bool
  cbConv : Bool
  cbDup : Bool
  cbRen : Bool
  cbSel : Bool
  strategy : String
  dTimeCol : Bool
  dTimeErr : Bool
  dInfer : Bool
  dStrategy : Bool
  dFillValue : Bool
  dInterp : Bool
  dSubset : Bool
  dColTypes : Bool
  dConvErr : Bool
  dDupKeep : Bool
  dDupSubset : Bool
  dRenameMap : Bool
  dColsKeep : Bool
deriving DecidableEq, Repr

/-- Initial widget state: checkboxes unchecked, strategy `ffill`, every
parameter widget hidden (lines 51 to 209 and 323 to 341). -/
def initW : WState :=
  { cbDt := false, cbMiss := false, cbConv := false, cbDup := false,
    cbRen := false, cbSel := false, strategy := ("ffill"),
    dTimeCol := false, dTimeErr := false, dInfer := false,
    dStrategy := false, dFillValue := false, dInterp := false, dSubset := false,
    dColTypes := false, dConvErr := false,
    dDupKeep := false, dDupSubset := false,
    dRenameMap := false, dColsKeep := false }

/-- Checkbox and dropdown change events wired through `observe`. -/
inductive UIEvent where
  | setDt : Bool → UIEvent
  | setMiss : Bool → UIEvent
  | setStrategy : String → UIEvent
  | setConv : Bool → UIEvent
  | setDup : Bool → UIEvent
  | setRen : Bool → UIEvent
  | setSel : Bool → UIEvent
deriving DecidableEq, Repr

def onDtChange (b : Bool) (w : WState) : WState :=
  { w with dTimeCol := b, dTimeErr := b, dInfer := b }

def onMissChange (b : Bool) (w : WState) : WState :=
  if b then
    { w with dStrategy := true, dSubset := true,
             dFillValue := (w.strategy == ("fill_constant")),
             dInterp := (w.strategy == ("interpolate")) }
  else
    { w with dStrategy := false, dFillValue := false, dInterp := false, dSubset := false }

/-- The strategy handler shows or hides the fill-value and interpolation
widgets from the new strategy alone, without consulting the checkbox. -/
def onStrategyChange (sv : String) (w : WState) : WState :=
  { w with dFillValue := (sv == ("fill_constant")), dInterp := (sv == ("interpolate")) }

def onConvChange (b : Bool) (w : WState) : WState :=
  { w with dColTypes := b, dConvErr := b }

def onDupChange (b : Bool) (w : WState) : WState :=
  { w with dDupKeep := b, dDupSubset := b }

def onRenChange (b : Bool) (w : WState) : WState :=
  { w with dRenameMap := b }

def onSelChange (b : Bool) (w : WState) : WState :=
  { w with dColsKeep := b }

/-- One observed change: `observe(..., names='value')` fires only when the
value actually changes, after the widget value is updated. -/
def stepUI (w : WState) : UIEvent → WState
  | .setDt b => if b == w.cbDt then w else onDtChange b { w with cbDt := b }
  | .setMiss b => if b == w.cbMiss then w else onMissChange b { w with cbMiss := b }
  | .setStrategy sv =>
      if sv == w.strategy then w else onStrategyChange sv { w with strategy := sv }
  | .setConv b => if b == w.cbConv then w else onConvChange b { w with cbConv := b }
  | .setDup b => if b == w.cbDup then w else onDupChange b { w with cbDup := b }
  | .setRen b => if b == w.cbRen then w else onRenChange b { w with cbRen := b }
  | .setSel b => if b == w.cbSel then w else onSelChange b { w with cbSel := b }

def runUI (w : WState) (es : List UIEvent) : WState := es.foldl stepUI w

/-- The display invariant the claim states: parameter widgets follow their
checkbox, and the two strategy-dependent widgets follow checkbox plus
strategy. -/
def wInv (w : WState) : Prop :=
  w.dTimeCol = w.cbDt ∧ w.dTimeErr = w.cbDt ∧ w.dInfer = w.cbDt ∧
  w.dStrategy = w.cbMiss ∧ w.dSubset = w.cbMiss ∧
  w.dFillValue = (w.cbMiss && (w.strategy == ("fill_constant"))) ∧
  w.dInterp = (w.cbMiss && (w.strategy == ("interpolate"))) ∧
  w.dColTypes = w.cbConv ∧ w.dConvErr = w.cbConv ∧
  w.dDupKeep = w.cbDup ∧ w.dDupSubset = w.cbDup ∧
  w.dRenameMap = w.cbRen ∧ w.dColsKeep = w.cbSel

/-- An event a user can produce at state `w`: the strategy dropdown can only
be changed while it is displayed; the checkboxes are always displayed. -/
def okEvent (w : WState) : UIEvent → Prop
  | .setStrategy _ => w.dStrategy = true
  | _ => True

def okTrace : WState → List UIEvent → Prop
  | _, [] => True
  | w, e :: es => okEvent w e ∧ okTrace (stepUI w e) es

/-! Heap model for the copy semantics of the constructor and of
`get_processed_df` (claim about aliasing): frames live at numbered cells,
`df.copy()` is an allocation of a fresh cell holding the same contents. -/

abbrev Heap : Type := List DataFrame

def readH (h : Heap) (r : Nat) : DataFrame := h.getD r emptyFrame

def writeH (h : Heap) (r : Nat) (d : DataFrame) : Heap := h.set r d

def allocH (h : Heap) (d : DataFrame) : Heap × Nat := (h ++ [d], h.length)

/-- The constructor `DataFrameProcessor.__init__`: `self.df = df.copy()`
allocates a fresh cell holding the contents of the input cell. -/
def procNew (h : Heap) (input : Nat) : Heap × Nat :=
  allocH h (readH h input)

/-- `get_processed_df`: `return self.df.copy()` allocates a fresh cell
holding the contents of the internal cell. -/
def getProcessedRef (h : Heap) (dfRef : Nat) : Heap × Nat :=
  allocH h (readH h dfRef)

/-- The log has been extended (possibly by nothing): append-only growth. -/
def logExt (old new : List String) : Prop := ∃ msgs, new = old ++ msgs

/-- The log has been extended by at least one message. -/
def logGrew (old new : List String) : Prop :=
  ∃ msgs, msgs ≠ [] ∧ new = old ++ msgs

/-- The property claimed by C4: some UI selection makes the click pipeline
invoke the user-supplied transform. -/
def canInvokeCustom : Prop :=
  ∃ (s : UISettings) (raw : DataFrame) (env : SaveEnv),
    StepId.customStep ∈ (clickOnce s raw env).trace

/-! Sample data shared by witnesses and counterexamples. -/

def dfTwoNa : DataFrame :=
  { index := [Val.i 0], cols := [(("A"), [Val.na]), (("B"), [Val.na])] }

def stSample : PState := procInit dfTwoNa

def envTrue : SaveEnv :=
  { driveMounted := true, writeOk := true, nowStamp := ("20250101_000000") }

def uiAllOff : UISettings :=
  { cbDatetime := false, timeColText := ("timestamp"), timeErrors := ("raise"),
    inferFmt := true, cbMissing := false, missingStrategy := ("ffill"),
    fillValueText := ("0"), interpMethod := ("linear"), missingSubsetText := (""),
    cbConvert := false, columnTypesJson := some [], convertErrors := ("raise"),
    cbDup := false, dupKeep := KeepOpt.first, dupSubsetText := (""),
    cbRename := false, renameMapJson := some [], cbSelect := false,
    columnsToKeepText := (""), savePref := ("processed_data"),
    saveFormat := ("parquet"), includeTimestamp := true }

def uiSelOnly : UISettings := { uiAllOff with cbSelect := true }

/-! Shared helper lemmas. -/

theorem pLog_df (st : PState) (m : String) : (pLog st m).df = st.df := rfl

theorem pLog_log (st : PState) (m : String) : (pLog st m).log = st.log ++ [m] := rfl

theorem mem_guardList {y : StepId} {c : Bool} {x : StepId} :
    y ∈ guardList c x ↔ c = true ∧ y = x := by
  cases c <;> simp [guardList]

theorem stepDatetime_snd (s : UISettings) (st : PState) :
    (stepDatetime s st).2 = guardList s.cbDatetime StepId.datetimeStep := by
  cases h : s.cbDatetime <;> simp [stepDatetime, guardList, h]

theorem stepMissing_snd (s : UISettings) (st : PState) :
    (stepMissing s st).2 = guardList s.cbMissing StepId.missingStep := by
  cases h : s.cbMissing <;> simp [stepMissing, guardList, h]

theorem stepConvert_snd (s : UISettings) (st : PState) :
    (stepConvert s st).2
      = guardList (s.cbConvert && s.columnTypesJson.isSome) StepId.convertStep := by
  cases h : s.cbConvert <;> cases hj : s.columnTypesJson <;>
    simp [stepConvert, guardList, h, hj]

theorem stepDedup_snd (s : UISettings) (st : PState) :
    (stepDedup s st).2 = guardList s.cbDup StepId.dedupStep := by
  cases h : s.cbDup <;> simp [stepDedup, guardList, h]

theorem stepRename_snd (s : UISettings) (st : PState) :
    (stepRename s st).2
      = guardList (s.cbRename && s.renameMapJson.isSome) StepId.renameStep := by
  cases h : s.cbRename <;> cases hj : s.renameMapJson <;>
    simp [stepRename, guardList, h, hj]

theorem stepSelect_snd (s : UISettings) (st : PState) :
    (stepSelect s st).2
      = guardList (s.cbSelect && (splitColsText s.columnsToKeepText).isSome)
          StepId.selectStep := by
  cases h : s.cbSelect <;> cases hj : splitColsText s.columnsToKeepText <;>
    simp [stepSelect, guardList, h, hj]

/-- The trace of one click is exactly the guard-filtered fixed step sequence
followed by the export, whatever the data and the environment. -/
theorem clickTrace_eq (s : UISettings) (raw : DataFrame) (env : SaveEnv) :
    (clickOnce s raw env).trace = stepsOf s ++ [StepId.exportStep] := by
  simp [clickOnce, stepsOf, stepDatetime_snd, stepMissing_snd, stepConvert_snd,
    stepDedup_snd, stepRename_snd, stepSelect_snd, List.append_assoc]

theorem nodup_guard_steps (a b c d e f : Bool) :
    (guardList a StepId.datetimeStep ++ guardList b StepId.missingStep ++
     guardList c StepId.convertStep ++ guardList d StepId.dedupStep ++
     guardList e StepId.renameStep ++ guardList f StepId.selectStep ++
     [StepId.exportStep]).Nodup := by
  cases a <;> cases b <;> cases c <;> cases d <;> cases e <;> cases f <;> decide

theorem nodup_stepsOf_export (s : UISettings) :
    (stepsOf s ++ [StepId.exportStep]).Nodup := by
  have h := nodup_guard_steps s.cbDatetime s.cbMissing
    (s.cbConvert && s.columnTypesJson.isSome) s.cbDup
    (s.cbRename && s.renameMapJson.isSome)
    (s.cbSelect && (splitColsText s.columnsToKeepText).isSome)
  simpa [stepsOf, List.append_assoc] using h

theorem customStep_not_mem (s : UISettings) (raw : DataFrame) (env : SaveEnv) :
    StepId.customStep ∉ (clickOnce s raw env).trace := by
  rw [clickTrace_eq]
  simp [stepsOf, mem_guardList]

theorem clickFinalDf_indep (s : UISettings) (raw : DataFrame) (e1 e2 : SaveEnv) :
    (clickOnce s raw e1).finalDf = (clickOnce s raw e2).finalDf := rfl

/-! Claim C1. -/

/-- C1 counterexample: with only the column-selection checkbox checked and an
empty column list, the click executes no selection step at all (the trace is
just the export), refuting that an operation runs exactly when its checkbox
is checked. -/
theorem C1_counterexample :
    uiSelOnly.cbSelect = true ∧
      StepId.selectStep ∉ (clickOnce uiSelOnly dfTwoNa envTrue).trace := by
  decide

/-- C1 (amended): every click applies the selected operations in the fixed
order datetime indexing, missing values, type conversion, de-duplication,
renaming, column selection, followed by the export; a step runs exactly when
its checkbox is checked, except that type conversion and renaming also need
their JSON field to parse, and column selection needs a non-empty column
list. -/
theorem C1_pipeline_order (s : UISettings) (raw : DataFrame) (env : SaveEnv) :
    (clickOnce s raw env).trace = stepsOf s ++ [StepId.exportStep] :=
  clickTrace_eq s raw env

/-! Claim C2. -/

/-- C2: the steps a click executes, export included, are a function of the
widget settings alone, unchanged by whatever the data makes an operation
raise (the handler catches every exception and continues); the trace has no
duplicate step, so no failed operation is retried; and an operation that
raises (here the cited `set_datetime_index`) logs a message describing the
failure before propagating it. -/
theorem C2_error_isolation :
    (∀ (s : UISettings) (raw : DataFrame) (env : SaveEnv),
      (clickOnce s raw env).trace = stepsOf s ++ [StepId.exportStep] ∧
      (clickOnce s raw env).trace.Nodup ∧
      StepId.exportStep ∈ (clickOnce s raw env).trace) ∧
    (∀ (tc er : String) (inf : Bool) (st : PState),
      ((set_datetime_index tc er inf st).err).isSome = true →
      ∃ m, (set_datetime_index tc er inf st).st.log = st.log ++ [m]) := by
  constructor
  · intro s raw env
    refine ⟨clickTrace_eq s raw env, ?_, ?_⟩
    · rw [clickTrace_eq]
      exact nodup_stepsOf_export s
    · rw [clickTrace_eq]
      simp
  · intro tc er inf st h
    cases hc : hasCol st.df tc with
    | false =>
      simp only [set_datetime_index, hc] at h ⊢
      exact ⟨_, rfl⟩
    | true =>
      simp only [set_datetime_index, hc] at h ⊢
      cases hp : pdToDatetimeCol er (getColD st.df tc) with
      | error e =>
        simp only [hp] at h ⊢
        exact ⟨_, rfl⟩
      | ok vs =>
        simp [hp] at h

/-- C2 witness: a concrete failing datetime step (missing column) raises and
appends exactly one log message. -/
theorem C2_witness :
    ∃ m, (set_datetime_index ("zz") ("raise") true stSample).st.log
        = stSample.log ++ [m] :=
  C2_error_isolation.2 ("zz") ("raise") true stSample (by decide)

/-! Claim C4. -/

/-- C4 counterexample: no click, whatever the selection, ever executes a
custom-transform step; the handler has no such branch. -/
theorem C4_counterexample : ¬ canInvokeCustom :=
  fun h => by
    obtain ⟨s, raw, env, hmem⟩ := h
    exact customStep_not_mem s raw env hmem

/-- C4 (amended): the processor class offers `apply_custom_function`, which
invokes the user function on the table and replaces the table with the
returned frame, but the process-button pipeline never invokes it for any
UI selection. -/
theorem C4_custom_function :
    (∀ (s : UISettings) (raw : DataFrame) (env : SaveEnv),
      StepId.customStep ∉ (clickOnce s raw env).trace) ∧
    (∀ (func : DataFrame → Except String PyVal) (st : PState) (r : DataFrame),
      func st.df = Except.ok (PyVal.frame r) →
      (apply_custom_function func st).st.df = r ∧
      (apply_custom_function func st).err = none) := by
  constructor
  · exact customStep_not_mem
  · intro func st r h
    constructor
    · simp only [apply_custom_function, h]
      split_ifs <;> rfl
    · simp only [apply_custom_function, h]

/-- C4 witness: a concrete user function returning a frame is applied and its
result becomes the processed frame. -/
theorem C4_witness :
    (apply_custom_function (fun _ => Except.ok (PyVal.frame emptyFrame)) stSample).st.df
        = emptyFrame ∧
    (apply_custom_function (fun _ => Except.ok (PyVal.frame emptyFrame)) stSample).err
        = none :=
  C4_custom_function.2 (fun _ => Except.ok (PyVal.frame emptyFrame)) stSample emptyFrame rfl

/-! Claim C5. -/

/-- C5 counterexample: a user prefix beginning with a path separator makes
the file name an absolute path, so `os.path.join` discards the base and the
successful save returns a path outside the mounted base path, refuting that
every successful export lands under the base path. -/
theorem C5_counterexample :
    save_dataframe envTrue basePathDefault ("/tmp/x") ("parquet") true
      = ("/tmp/x_20250101_000000.parquet") ∧
    strStartsWith basePathDefault
      (save_dataframe envTrue basePathDefault ("/tmp/x") ("parquet") true) = false := by
  decide

/-- C5 (amended): when the drive mount check and the write succeed and the
format is supported, `save_dataframe` returns the full path
`os.path.join(base, name)` where `name` is the user prefix, optionally the
timestamp, and the format extension; when that file name does not begin
with a path separator, the path lies under the base path (a separator-led
prefix makes the join discard the base).  When the drive is unavailable,
the write fails, or the format is unsupported (a `ValueError` swallowed by
the outer handler), the empty string is returned; and the click handler
exports with exactly the widget values. -/
theorem C5_save_dataframe :
    (∀ (env : SaveEnv) (base pref fmt : String) (its : Bool),
      env.driveMounted = true → validFormats.contains fmt = true → env.writeOk = true →
      save_dataframe env base pref fmt its
        = pathJoin base (saveFilename pref fmt (if its then env.nowStamp else (""))) ∧
      (base ≠ ("") →
        (saveFilename pref fmt (if its then env.nowStamp else (""))).data.head?
            ≠ some ('/') →
        ∃ suffix, save_dataframe env base pref fmt its = base ++ suffix)) ∧
    (∀ (env : SaveEnv) (base pref fmt : String) (its : Bool),
      env.driveMounted = false → save_dataframe env base pref fmt its = ("")) ∧
    (∀ (env : SaveEnv) (base pref fmt : String) (its : Bool),
      env.writeOk = false → save_dataframe env base pref fmt its = ("")) ∧
    (∀ (env : SaveEnv) (base pref fmt : String) (its : Bool),
      validFormats.contains fmt = false → save_dataframe env base pref fmt its = ("")) ∧
    (∀ (s : UISettings) (raw : DataFrame) (env : SaveEnv),
      (clickOnce s raw env).savedPath
        = save_dataframe env basePathDefault (strTrim s.savePref) s.saveFormat
            s.includeTimestamp) := by
  refine ⟨?_, ?_, ?_, ?_, ?_⟩
  · intro env base pref fmt its hm hf hw
    have hf2 : fmt ∈ validFormats := by simpa using hf
    constructor
    · simp [save_dataframe, hm, hf2, hw]
    · intro hb hslash
      by_cases hs : base.data.getLast? = some ('/')
      · exact ⟨saveFilename pref fmt (if its then env.nowStamp else ("")),
          by simp [save_dataframe, hm, hf2, hw, pathJoin, hb, hs, hslash]⟩
      · exact ⟨("/") ++ saveFilename pref fmt (if its then env.nowStamp else ("")),
          by simp [save_dataframe, hm, hf2, hw, pathJoin, hb, hs, hslash]⟩
  · intro env base pref fmt its hm
    simp [save_dataframe, hm]
  · intro env base pref fmt its hw
    by_cases hm : env.driveMounted <;> by_cases hf2 : fmt ∈ validFormats <;>
      simp [save_dataframe, hm, hf2, hw]
  · intro env base pref fmt its hf
    have hf2 : fmt ∉ validFormats := by simpa using hf
    by_cases hm : env.driveMounted <;> simp [save_dataframe, hm, hf2]
  · intro s raw env
    rfl

/-- C5 witness: a concrete successful save with a separator-free prefix
returns the joined full path and lies under the base path, and a concrete
unmounted drive returns the empty string. -/
theorem C5_witness :
    save_dataframe envTrue basePathDefault ("processed_data") ("parquet") true
      = pathJoin basePathDefault
          (saveFilename ("processed_data") ("parquet") (envTrue.nowStamp)) ∧
    (∃ suffix, save_dataframe envTrue basePathDefault ("processed_data") ("parquet") true
        = basePathDefault ++ suffix) ∧
    save_dataframe { envTrue with driveMounted := false } basePathDefault
        ("processed_data") ("parquet") true = ("") := by
  refine ⟨?_, ?_, ?_⟩
  · have h := (C5_save_dataframe.1 envTrue basePathDefault ("processed_data") ("parquet")
      true rfl (by decide) rfl).1
    simpa using h
  · exact (C5_save_dataframe.1 envTrue basePathDefault ("processed_data") ("parquet")
      true rfl (by decide) rfl).2 (by decide) (by decide)
  · exact C5_save_dataframe.2.1 { envTrue with driveMounted := false } basePathDefault
      ("processed_data") ("parquet") true rfl

/-! Claim C7. -/

theorem wInv_initW : wInv initW := by
  constructor <;> first | rfl | (constructor <;> first | rfl | (repeat constructor))

/-- One user-producible event preserves the display invariant. -/
theorem wInv_step (w : WState) (e : UIEvent) (hw : wInv w) (he : okEvent w e) :
    wInv (stepUI w e) := by
  obtain ⟨h1, h2, h3, h4, h5, h6, h7, h8, h9, h10, h11, h12, h13⟩ := hw
  cases e with
  | setDt b =>
    simp only [stepUI]
    split
    · exact ⟨h1, h2, h3, h4, h5, h6, h7, h8, h9, h10, h11, h12, h13⟩
    · simp_all [onDtChange, wInv]
  | setMiss b =>
    simp only [stepUI]
    split
    · exact ⟨h1, h2, h3, h4, h5, h6, h7, h8, h9, h10, h11, h12, h13⟩
    · cases b <;> simp_all [onMissChange, wInv]
  | setStrategy sv =>
    have hm : w.cbMiss = true := h4 ▸ he
    simp only [stepUI]
    split
    · exact ⟨h1, h2, h3, h4, h5, h6, h7, h8, h9, h10, h11, h12, h13⟩
    · simp_all [onStrategyChange, wInv]
  | setConv b =>
    simp only [stepUI]
    split
    · exact ⟨h1, h2, h3, h4, h5, h6, h7, h8, h9, h10, h11, h12, h13⟩
    · simp_all [onConvChange, wInv]
  | setDup b =>
    simp only [stepUI]
    split
    · exact ⟨h1, h2, h3, h4, h5, h6, h7, h8, h9, h10, h11, h12, h13⟩
    · simp_all [onDupChange, wInv]
  | setRen b =>
    simp only [stepUI]
    split
    · exact ⟨h1, h2, h3, h4, h5, h6, h7, h8, h9, h10, h11, h12, h13⟩
    · simp_all [onRenChange, wInv]
  | setSel b =>
    simp only [stepUI]
    split
    · exact ⟨h1, h2, h3, h4, h5, h6, h7, h8, h9, h10, h11, h12, h13⟩
    · simp_all [onSelChange, wInv]

theorem wInv_runUI (es : List UIEvent) :
    ∀ (w : WState), wInv w → okTrace w es → wInv (runUI w es) := by
  induction es with
  | nil => intro w hw _; exact hw
  | cons e rest ih =>
    intro w hw hok
    exact ih (stepUI w e) (wInv_step w e hw hok.1) hok.2

/-- C7 counterexample: from the initial state, a single strategy-dropdown
change to `fill_constant` (fired while the missing-values checkbox is
unchecked, so while the dropdown is hidden) displays the fill-value field
with the checkbox still unchecked, refuting the claimed invariant for
arbitrary change sequences. -/
theorem C7_counterexample :
    (runUI initW [UIEvent.setStrategy ("fill_constant")]).dFillValue = true ∧
    (runUI initW [UIEvent.setStrategy ("fill_constant")]).cbMiss = false ∧
    ¬ wInv (runUI initW [UIEvent.setStrategy ("fill_constant")]) := by
  refine ⟨by decide, by decide, ?_⟩
  intro hinv
  have h6 := hinv.2.2.2.2.2.1
  exact absurd h6 (by decide)

/-- C7 (amended): starting from the initial UI state, along every sequence of
checkbox changes and of strategy-dropdown changes fired while the dropdown
is displayed (the checkbox is checked), each operation widget is displayed
exactly when its checkbox is checked, the fill-value field exactly when the
missing checkbox is checked and the strategy is `fill_constant`, and the
interpolation dropdown exactly when the checkbox is checked and the strategy
is `interpolate`. -/
theorem C7_display_invariant (es : List UIEvent) (hok : okTrace initW es) :
    wInv (runUI initW es) :=
  wInv_runUI es initW wInv_initW hok

/-- C7 witness: checking the missing-values checkbox and then selecting the
`interpolate` strategy is a user-producible sequence, and the invariant
holds at its end. -/
theorem C7_witness :
    wInv (runUI initW [UIEvent.setMiss true, UIEvent.setStrategy ("interpolate")]) :=
  C7_display_invariant [UIEvent.setMiss true, UIEvent.setStrategy ("interpolate")]
    ⟨trivial,
     (by decide : (stepUI initW (UIEvent.setMiss true)).dStrategy = true), trivial⟩

/-! Claim C8. -/

theorem readH_writeH_ne (L : Heap) (iW r : Nat) (hne : iW ≠ r) (d : DataFrame) :
    readH (writeH L iW d) r = readH L r := by
  simp [readH, writeH, List.getD_eq_getElem?_getD, List.getElem?_set_ne hne]

theorem readH_alloc_old (L : Heap) (x : DataFrame) (r : Nat) (hr : r < L.length) :
    readH (allocH L x).1 r = readH L r := by
  simp only [readH, allocH]
  exact List.getD_append _ _ _ _ hr

theorem readH_alloc_new (L : Heap) (x : DataFrame) :
    readH (allocH L x).1 (allocH L x).2 = x := by
  simp [readH, allocH, List.getD_append_right _ _ _ _ (Nat.le_refl _), Nat.sub_self]

/-- C8: the constructor stores a fresh copy of the caller's frame and
`get_processed_df` returns a fresh copy of the internal frame: the fresh
cell is a different cell holding equal contents, and overwriting it (any
later mutation) leaves the original cell unchanged. -/
theorem C8_copy_semantics :
    (∀ (h : Heap) (inputR : Nat), inputR < h.length →
      (procNew h inputR).2 ≠ inputR ∧
      readH (procNew h inputR).1 inputR = readH h inputR ∧
      readH (procNew h inputR).1 (procNew h inputR).2 = readH h inputR ∧
      ∀ d, readH (writeH (procNew h inputR).1 (procNew h inputR).2 d) inputR
        = readH h inputR) ∧
    (∀ (h : Heap) (pRef : Nat), pRef < h.length →
      (getProcessedRef h pRef).2 ≠ pRef ∧
      readH (getProcessedRef h pRef).1 (getProcessedRef h pRef).2 = readH h pRef ∧
      ∀ d, readH (writeH (getProcessedRef h pRef).1 (getProcessedRef h pRef).2 d) pRef
        = readH h pRef) := by
  constructor
  · intro h inputR hr
    refine ⟨ne_of_gt hr, readH_alloc_old h _ inputR hr, readH_alloc_new h _, ?_⟩
    intro d
    show readH (writeH (h ++ [readH h inputR]) h.length d) inputR = readH h inputR
    rw [readH_writeH_ne _ _ _ (ne_of_gt hr) d]
    exact readH_alloc_old h _ inputR hr
  · intro h pRef hr
    refine ⟨ne_of_gt hr, readH_alloc_new h _, ?_⟩
    intro d
    show readH (writeH (h ++ [readH h pRef]) h.length d) pRef = readH h pRef
    rw [readH_writeH_ne _ _ _ (ne_of_gt hr) d]
    exact readH_alloc_old h _ pRef hr

/-- C8 witness: on a one-cell heap, the processor copy lives at a new cell
and overwriting it leaves the caller's cell untouched. -/
theorem C8_witness :
    (procNew [dfTwoNa] 0).2 ≠ 0 ∧
    readH (procNew [dfTwoNa] 0).1 0 = readH [dfTwoNa] 0 ∧
    readH (procNew [dfTwoNa] 0).1 (procNew [dfTwoNa] 0).2 = readH [dfTwoNa] 0 ∧
    ∀ d, readH (writeH (procNew [dfTwoNa] 0).1 (procNew [dfTwoNa] 0).2 d) 0
      = readH [dfTwoNa] 0 :=
  C8_copy_semantics.1 [dfTwoNa] 0 (by decide)

/-! Claim C9. -/

/-- C9: every click rebuilds the processor from a fresh copy of the stored
raw frame, so a second click with the same settings leaves the same
processed frame as the first, whatever the save environments; the raw frame
is never replaced. -/
theorem C9_click_idempotent (s : UISettings) (env1 env2 : SaveEnv) (u : UIObj) :
    (clickUI s env2 (clickUI s env1 u)).processedDf = (clickUI s env1 u).processedDf ∧
    (clickUI s env1 u).rawDf = u.rawDf := by
  constructor
  · simp only [clickUI]
    exact congrArg some (clickFinalDf_indep s u.rawDf env2 env1)
  · rfl

/-! Claim C10. -/

/-- C10: an unsupported strategy or an absent subset column in
`handle_missing_values`, and an absent column in `rename_columns` or
`select_columns`, raise before any modification: the processor frame is
exactly the one before the call. -/
theorem C10_validation_before_mutation :
    (∀ (st : PState) (strat : String) (sub : Option (List String))
        (fv : Option Val) (m : String),
      strat ∉ validStrategies →
      (handle_missing_values strat sub fv m st).st.df = st.df ∧
      ((handle_missing_values strat sub fv m st).err).isSome = true) ∧
    (∀ (st : PState) (strat : String) (l : List String) (fv : Option Val)
        (m c : String),
      c ∈ l → hasCol st.df c = false →
      (handle_missing_values strat (some l) fv m st).st.df = st.df ∧
      ((handle_missing_values strat (some l) fv m st).err).isSome = true) ∧
    (∀ (st : PState) (rm : List (String × String)) (c : String),
      c ∈ rm.map Prod.fst → hasCol st.df c = false →
      (rename_columns rm st).st.df = st.df ∧
      ((rename_columns rm st).err).isSome = true) ∧
    (∀ (st : PState) (cols : List String) (c : String),
      c ∈ cols → hasCol st.df c = false →
      (select_columns cols st).st.df = st.df ∧
      ((select_columns cols st).err).isSome = true) := by
  refine ⟨?_, ?_, ?_, ?_⟩
  · intro st strat sub fv m h
    simp [handle_missing_values, h, pLog]
  · intro st strat l fv m c hcm hcol
    by_cases hv : strat ∈ validStrategies
    · cases l with
      | nil => cases hcm
      | cons a as =>
        have hex : hasCol st.df a = false ∨ ∃ x ∈ as, hasCol st.df x = false := by
          rcases List.mem_cons.mp hcm with h | h
          · exact Or.inl (h ▸ hcol)
          · exact Or.inr ⟨c, h, hcol⟩
        simp [handle_missing_values, hv, subActive, hex, pLog]
    · simp [handle_missing_values, hv, pLog]
  · intro st rm c hcm hcol
    have hmem : c ∈ (rm.map Prod.fst).filter (fun x => ! hasCol st.df x) :=
      List.mem_filter.mpr ⟨hcm, by simp [hcol]⟩
    have hne : (rm.map Prod.fst).filter (fun x => ! hasCol st.df x) ≠ [] :=
      List.ne_nil_of_mem hmem
    simp [rename_columns, hne, pLog]
  · intro st cols c hcm hcol
    have hmem : c ∈ cols.filter (fun x => ! hasCol st.df x) :=
      List.mem_filter.mpr ⟨hcm, by simp [hcol]⟩
    have hne : cols.filter (fun x => ! hasCol st.df x) ≠ [] :=
      List.ne_nil_of_mem hmem
    simp [select_columns, hne, pLog]

/-- C10 witness: concrete invalid calls (unsupported strategy, absent subset
column, absent rename key, absent selected column) all leave the sample
frame unchanged. -/
theorem C10_witness :
    (handle_missing_values ("bogus") none none ("linear") stSample).st.df = stSample.df ∧
    (handle_missing_values ("ffill") (some [("zz")]) none ("linear") stSample).st.df
      = stSample.df ∧
    (rename_columns [(("zz"), ("w"))] stSample).st.df = stSample.df ∧
    (select_columns [("zz")] stSample).st.df = stSample.df :=
  ⟨(C10_validation_before_mutation.1 stSample ("bogus") none none ("linear")
      (by decide)).1,
   (C10_validation_before_mutation.2.1 stSample ("ffill") [("zz")] none ("linear")
      ("zz") (by decide) (by decide)).1,
   (C10_validation_before_mutation.2.2.1 stSample [(("zz"), ("w"))] ("zz")
      (by decide) (by decide)).1,
   (C10_validation_before_mutation.2.2.2 stSample [("zz")] ("zz")
      (by decide) (by decide)).1⟩

/-! Claim C6: helper lemmas about log growth. -/

theorem logExt_refl (old : List String) : logExt old old := ⟨[], by simp⟩

theorem logExt_of_eq (old : List String) (x : PState) (h : x.log = old) :
    logExt old x.log := ⟨[], by simp [h]⟩

theorem logExt_pLog (old : List String) (x : PState) (m : String)
    (h : logExt old x.log) : logExt old (pLog x m).log := by
  obtain ⟨ms, he⟩ := h
  exact ⟨ms ++ [m], by simp [pLog, he]⟩

theorem logExt_ite (old : List String) (c : Prop) [Decidable c] (x : PState)
    (m : String) (h : logExt old x.log) :
    logExt old (if c then pLog x m else x).log := by
  split
  · exact logExt_pLog old x m h
  · exact h

theorem logGrew_of_ext_pLog (old : List String) (x : PState) (m : String)
    (h : logExt old x.log) : logGrew old (pLog x m).log := by
  obtain ⟨ms, he⟩ := h
  exact ⟨ms ++ [m], by simp, by simp [pLog, he]⟩

theorem logGrew_pLog (old : List String) (x : PState) (m : String) (h : x.log = old) :
    logGrew old (pLog x m).log :=
  logGrew_of_ext_pLog old x m (logExt_of_eq old x h)

theorem logGrew_ite (old : List String) (c : Prop) [Decidable c] (x : PState)
    (m : String) (h : logGrew old x.log) :
    logGrew old (if c then pLog x m else x).log := by
  split
  · obtain ⟨ms, hne, he⟩ := h
    exact ⟨ms ++ [m], by simp, by simp [pLog, he]⟩
  · exact h

theorem hmvCore_logGrew (strategy : String) (sub : Option (List String))
    (fillValue : Option Val) (method : String) (st : PState) :
    logGrew st.log (hmvCore strategy sub fillValue method st).st.log := by
  simp only [hmvCore]
  split
  · exact logGrew_pLog _ _ _ rfl
  · exact logGrew_of_ext_pLog _ _ _
      (logExt_pLog _ _ _ (logExt_of_eq _ _ rfl))

theorem convStep_log_extends (errors : String)
    (acc : DataFrame × List String × Option String) (it : String × String) :
    ∃ add, (convStep errors acc it).2.1 = acc.2.1 ++ add := by
  obtain ⟨df, lg, e⟩ := acc
  cases e with
  | some e => exact ⟨[], by simp [convStep]⟩
  | none =>
    simp only [convStep]
    split
    · split
      · exact ⟨_, rfl⟩
      · exact ⟨[], by simp⟩
    · split
      · exact ⟨_, rfl⟩
      · split
        · exact ⟨[], by simp⟩
        · exact ⟨_, rfl⟩

theorem convFold_log_extends (errors : String) (items : List (String × String)) :
    ∀ acc, ∃ add, (items.foldl (convStep errors) acc).2.1 = acc.2.1 ++ add := by
  induction items with
  | nil => intro acc; exact ⟨[], by simp⟩
  | cons it rest ih =>
    intro acc
    obtain ⟨a1, h1⟩ := convStep_log_extends errors acc it
    obtain ⟨a2, h2⟩ := ih (convStep errors acc it)
    refine ⟨a1 ++ a2, ?_⟩
    rw [List.foldl_cons, h2, h1, List.append_assoc]

theorem convStep_first_logs (errors : String) (df : DataFrame) (it : String × String)
    (hlg : (convStep errors (df, [], none) it).2.1 = [])  :
    ((convStep errors (df, [], none) it).2.2).isSome = true := by
  simp only [convStep] at hlg ⊢
  split
  · split <;> simp_all
  · split
    · simp_all
    · split <;> simp_all

theorem convFold_some (errors : String) (items : List (String × String))
    (df : DataFrame) (lg : List String) (e : String) :
    items.foldl (convStep errors) (df, lg, some e) = (df, lg, some e) := by
  induction items with
  | nil => rfl
  | cons it rest ih => rw [List.foldl_cons]; exact ih

theorem convert_logGrew (ct : List (String × String)) (er : String) (st : PState)
    (hct : ct ≠ []) :
    logGrew st.log (convert_data_types ct er st).st.log := by
  simp only [convert_data_types]
  split
  · exact logGrew_pLog _ _ _ rfl
  · cases ct with
    | nil => exact absurd rfl hct
    | cons it rest =>
      split
      case h_1 df2 lg heq =>
        refine ⟨lg, ?_, rfl⟩
        intro hlg
        subst hlg
        rw [List.foldl_cons] at heq
        rcases he1 : (convStep er (st.df, [], none) it).2.2 with _ | e1
        · obtain ⟨a2, h2⟩ := convFold_log_extends er rest (convStep er (st.df, [], none) it)
          have h3 := congrArg (fun p => p.2.1) heq
          simp only at h3
          rw [h2] at h3
          have h4 := List.append_eq_nil.mp h3
          have h5 := convStep_first_logs er st.df it h4.1
          rw [he1] at h5
          simp at h5
        · have hstep : convStep er (st.df, [], none) it
              = ((convStep er (st.df, [], none) it).1,
                 (convStep er (st.df, [], none) it).2.1, some e1) := by
            rw [← he1]
          rw [hstep, convFold_some] at heq
          have h5 := congrArg (fun p => p.2.2) heq
          simp at h5
      case h_2 df2 lg e heq =>
        exact ⟨lg ++ [("error while converting data types ") ++ e], by simp,
          (List.append_assoc _ _ _)⟩

/-- C6 counterexample: `convert_data_types` called with an empty column-types
mapping succeeds without appending any log message, refuting that every
operation logs at least one message on every path. -/
theorem C6_counterexample :
    (convert_data_types [] ("raise") stSample).st.log = stSample.log ∧
    (convert_data_types [] ("raise") stSample).err = none := by
  decide

/-- C6 (amended): construction and every operation of the processor, on both
the success and the error path, append at least one message to the log
(always at the end, so `get_log_messages` returns the messages in logging
order), with the single exception of `convert_data_types` applied to an
empty column-types mapping, which appends nothing; `get_log_messages`
returns the whole log. -/
theorem C6_logging :
    (∀ df : DataFrame, (procInit df).log ≠ []) ∧
    (∀ (tc er : String) (inf : Bool) (st : PState),
      logGrew st.log (set_datetime_index tc er inf st).st.log) ∧
    (∀ (strat : String) (sub : Option (List String)) (fv : Option Val)
        (m : String) (st : PState),
      logGrew st.log (handle_missing_values strat sub fv m st).st.log) ∧
    (∀ (ct : List (String × String)) (er : String) (st : PState), ct ≠ [] →
      logGrew st.log (convert_data_types ct er st).st.log) ∧
    (∀ (sub : Option (List String)) (keep : KeepOpt) (st : PState),
      logGrew st.log (remove_duplicate_rows sub keep st).st.log) ∧
    (∀ (rm : List (String × String)) (st : PState),
      logGrew st.log (rename_columns rm st).st.log) ∧
    (∀ (cols : List String) (st : PState),
      logGrew st.log (select_columns cols st).st.log) ∧
    (∀ (func : DataFrame → Except String PyVal) (st : PState),
      logGrew st.log (apply_custom_function func st).st.log) ∧
    (∀ st : PState, logGrew st.log (get_processed_df st).2.log) ∧
    (∀ st : PState, get_log_messages st = st.log) := by
  refine ⟨?_, ?_, ?_, ?_, ?_, ?_, ?_, ?_, ?_, ?_⟩
  · intro df
    simp [procInit]
  · intro tc er inf st
    simp only [set_datetime_index]
    split
    · exact logGrew_pLog _ _ _ rfl
    · split
      · exact logGrew_pLog _ _ _ rfl
      · exact logGrew_ite _ _ _ _ (logGrew_pLog _ _ _ rfl)
  · intro strat sub fv m st
    simp only [handle_missing_values]
    split
    · exact logGrew_pLog _ _ _ rfl
    · split
      · split
        · exact logGrew_pLog _ _ _ rfl
        · exact hmvCore_logGrew _ _ _ _ _
      · exact hmvCore_logGrew _ _ _ _ _
  · exact convert_logGrew
  · intro sub keep st
    simp only [remove_duplicate_rows]
    split
    · split
      · exact logGrew_pLog _ _ _ rfl
      · exact logGrew_pLog _ _ _ rfl
    · exact logGrew_pLog _ _ _ rfl
  · intro rm st
    simp only [rename_columns]
    split
    · exact logGrew_pLog _ _ _ rfl
    · exact logGrew_pLog _ _ _ rfl
  · intro cols st
    simp only [select_columns]
    split
    · exact logGrew_pLog _ _ _ rfl
    · exact logGrew_ite _ _ _ _ (logGrew_pLog _ _ _ rfl)
  · intro func st
    simp only [apply_custom_function]
    split
    · exact logGrew_pLog _ _ _ rfl
    · exact logGrew_pLog _ _ _ rfl
    · apply logGrew_of_ext_pLog
      apply logExt_ite
      apply logExt_ite
      apply logExt_ite
      apply logExt_ite
      exact logExt_of_eq _ _ rfl
  · intro st
    exact logGrew_pLog _ _ _ rfl
  · intro st
    rfl

/-- C6 witness: a concrete non-empty type conversion appends at least one
message to the sample log, and `get_log_messages` is the log itself. -/
theorem C6_witness :
    logGrew stSample.log
      (convert_data_types [(("A"), ("str"))] ("raise") stSample).st.log ∧
    get_log_messages stSample = stSample.log :=
  ⟨C6_logging.2.2.2.1 [(("A"), ("str"))] ("raise") stSample (by decide),
   C6_logging.2.2.2.2.2.2.2.2.2 stSample⟩

/-! Claim C3: helper lemmas about the statistics dictionary. -/

theorem pLog_ite_df (c : Prop) [Decidable c] (x : PState) (m : String) :
    (if c then pLog x m else x).df = x.df := by
  split <;> rfl

theorem lookup_statDict_not_mem (stat : List Val → Val) (l : List (String × List Val))
    (k : String) (hk : k ∉ l.map Prod.fst) :
    (l.filterMap (fun d => if isNumericCol d.2 then some (d.1, stat d.2) else none)).lookup k
      = none := by
  induction l with
  | nil => rfl
  | cons d rest ih =>
    have hk1 : (k == d.1) = false :=
      beq_eq_false_iff_ne.mpr (fun h => hk (by simp [h]))
    have hk2 : k ∉ rest.map Prod.fst := fun h => hk (by simp [h])
    by_cases hn : isNumericCol d.2
    · rw [List.filterMap_cons, if_pos hn]
      simp only [List.lookup, hk1]
      exact ih hk2
    · rw [List.filterMap_cons, if_neg hn]
      exact ih hk2

theorem lookup_statDict (stat : List Val → Val) :
    ∀ (l : List (String × List Val)) (c : String × List Val),
      (l.map Prod.fst).Nodup → c ∈ l →
      (l.filterMap
        (fun d => if isNumericCol d.2 then some (d.1, stat d.2) else none)).lookup c.1
        = if isNumericCol c.2 then some (stat c.2) else none := by
  intro l
  induction l with
  | nil => intro c _ hc; cases hc
  | cons d rest ih =>
    intro c hnd hc
    have hndc := List.nodup_cons.mp (show (d.1 :: rest.map Prod.fst).Nodup from hnd)
    rcases List.mem_cons.mp hc with rfl | hc2
    · by_cases hn : isNumericCol c.2
      · rw [List.filterMap_cons, if_pos hn, List.lookup_cons_self, if_pos hn]
      · rw [List.filterMap_cons, if_neg hn, if_neg hn,
          lookup_statDict_not_mem stat rest c.1 hndc.1]
    · have hne : (c.1 == d.1) = false :=
        beq_eq_false_iff_ne.mpr (fun h => hndc.1 (h ▸ List.mem_map.mpr ⟨c, hc2, rfl⟩))
      by_cases hn : isNumericCol d.2
      · rw [List.filterMap_cons, if_pos hn]
        simp only [List.lookup, hne]
        exact ih c hndc.2 hc2
      · rw [List.filterMap_cons, if_neg hn]
        exact ih c hndc.2 hc2

/-- The per-column mean and median loops equal the single dictionary-valued
`fillna` call when the column names are distinct. -/
theorem fillStat_eq_pdFillnaDict (stat : List Val → Val) (df : DataFrame)
    (h : (colNames df).Nodup) :
    fillStatTargets (colNames df) stat df = pdFillnaDict (statDict stat df) df := by
  simp only [fillStatTargets, pdFillnaDict, statDict]
  congr 1
  apply List.map_congr_left
  intro c hc
  have hm2 : c.1 ∈ colNames df := List.mem_map.mpr ⟨c, hc, rfl⟩
  rw [lookup_statDict stat df.cols c h hc]
  by_cases hn : isNumericCol c.2 <;> simp [hm2, hn]

/-- C3 counterexample: `handle_missing_values` with the `dropna_cols`
strategy and a column subset succeeds, but its result differs from the
library call that drops the missing-value columns of the table (the code
runs a custom keep-column filter instead). -/
theorem C3_counterexample :
    (handle_missing_values ("dropna_cols") (some [("A")]) none ("linear")
        (procInit dfTwoNa)).err = none ∧
    (handle_missing_values ("dropna_cols") (some [("A")]) none ("linear")
        (procInit dfTwoNa)).st.df ≠ pdDropnaCols dfTwoNa := by
  decide

/-- C3 (amended): each cleaning operation with valid parameters delegates to
the tabular library.  With no column subset, every missing-value strategy is
a single direct library call on the table (the mean and median loops equal
the single dictionary-valued `fillna` call when column names are distinct);
de-duplication, renaming and projection are single direct calls; datetime
indexing is the `to_datetime` call followed by the `set_index` call; type
casting applies the corresponding library cast column by column.  The
exception forced by the counterexample: `dropna_cols` restricted to a
subset is a custom keep-column filter, not the library call on the table. -/
theorem C3_delegation :
    (∀ (fv : Option Val) (m : String) (st : PState),
      (handle_missing_values ("ffill") none fv m st).st.df = pdFillnaFfill st.df) ∧
    (∀ (fv : Option Val) (m : String) (st : PState),
      (handle_missing_values ("bfill") none fv m st).st.df = pdFillnaBfill st.df) ∧
    (∀ (fv : Option Val) (m : String) (st : PState),
      (handle_missing_values ("dropna_rows") none fv m st).st.df = pdDropnaRows st.df) ∧
    (∀ (fv : Option Val) (m : String) (st : PState),
      (handle_missing_values ("dropna_cols") none fv m st).st.df = pdDropnaCols st.df) ∧
    (∀ (fv : Option Val) (m : String) (st : PState),
      (handle_missing_values ("interpolate") none fv m st).st.df = pdInterpDf m st.df) ∧
    (∀ (v : Val) (m : String) (st : PState),
      (handle_missing_values ("fill_constant") none (some v) m st).st.df
        = pdFillnaVal v st.df) ∧
    (∀ (fv : Option Val) (m : String) (st : PState),
      (handle_missing_values ("fill_zero") none fv m st).st.df
        = pdFillnaVal (Val.i 0) st.df) ∧
    (∀ (fv : Option Val) (m : String) (st : PState), (colNames st.df).Nodup →
      (handle_missing_values ("fill_mean") none fv m st).st.df
        = pdFillnaDict (statDict meanValOfCol st.df) st.df) ∧
    (∀ (fv : Option Val) (m : String) (st : PState), (colNames st.df).Nodup →
      (handle_missing_values ("fill_median") none fv m st).st.df
        = pdFillnaDict (statDict medianValOfCol st.df) st.df) ∧
    (∀ (keep : KeepOpt) (st : PState),
      (remove_duplicate_rows none keep st).st.df = pdDropDuplicates none keep st.df) ∧
    (∀ (a : String) (as : List String) (keep : KeepOpt) (st : PState),
      (∀ x ∈ a :: as, hasCol st.df x = true) →
      (remove_duplicate_rows (some (a :: as)) keep st).st.df
        = pdDropDuplicates (some (a :: as)) keep st.df) ∧
    (∀ (rm : List (String × String)) (st : PState),
      (∀ k ∈ rm.map Prod.fst, hasCol st.df k = true) →
      (rename_columns rm st).st.df = pdRename rm st.df) ∧
    (∀ (cols : List String) (st : PState),
      (∀ x ∈ cols, hasCol st.df x = true) →
      (select_columns cols st).st.df = pdProject cols st.df) ∧
    (∀ (tc er : String) (inf : Bool) (st : PState) (vs : List Val),
      hasCol st.df tc = true →
      pdToDatetimeCol er (getColD st.df tc) = Except.ok vs →
      (set_datetime_index tc er inf st).st.df
        = pdSetIndex tc vs (setCol st.df tc vs)) ∧
    (∀ (c t er : String) (st : PState) (r : List Val),
      hasCol st.df c = true →
      innerCast er t (getColD st.df c) = Except.ok r →
      (convert_data_types [(c, t)] er st).st.df = setCol st.df c r) := by
  refine ⟨?_, ?_, ?_, ?_, ?_, ?_, ?_, ?_, ?_, ?_, ?_, ?_, ?_, ?_, ?_⟩
  · exact fun _fv _m _st => rfl
  · intro _fv _m _st
    rfl
  · exact fun _fv _m _st => rfl
  · intro _fv _m _st
    rfl
  · exact fun _fv _m _st => rfl
  · intro _v _m _st
    rfl
  · exact fun _fv _m _st => rfl
  · intro fv m st hnd
    have h0 : (handle_missing_values ("fill_mean") none fv m st).st.df
        = fillStatTargets (colNames st.df) meanValOfCol st.df := rfl
    rw [h0, fillStat_eq_pdFillnaDict meanValOfCol st.df hnd]
  · intro fv m st hnd
    have h0 : (handle_missing_values ("fill_median") none fv m st).st.df
        = fillStatTargets (colNames st.df) medianValOfCol st.df := rfl
    rw [h0, fillStat_eq_pdFillnaDict medianValOfCol st.df hnd]
  · exact fun _keep _st => rfl
  · intro a as keep st h
    have h1 : hasCol st.df a = true := h a (by simp)
    have h2 : ¬ ∃ x ∈ as, hasCol st.df x = false := by
      rintro ⟨x, hx, hf⟩
      rw [h x (by simp [hx])] at hf
      cases hf
    simp [remove_duplicate_rows, subActive, h1, h2, pLog]
  · intro rm st h
    have hfil : (rm.map Prod.fst).filter (fun c => ! hasCol st.df c) = [] :=
      List.filter_eq_nil_iff.mpr (fun a ha => by simp [h a ha])
    simp [rename_columns, hfil, pLog]
  · intro cols st h
    have hfil : cols.filter (fun c => ! hasCol st.df c) = [] :=
      List.filter_eq_nil_iff.mpr (fun a ha => by simp [h a ha])
    simp only [select_columns, hfil]
    split
    next hcontra => exact absurd rfl hcontra
    next => split <;> rfl
  · intro tc er inf st vs hc hok
    simp only [set_datetime_index, hc, Bool.not_true, Bool.false_eq_true, if_false,
      hok, pLog, pLog_ite_df]
    split <;> rfl
  · intro c t er st r hc hok
    have hfil : ([c] : List String).filter (fun x => ! hasCol st.df x) = [] := by
      simp [hc]
    simp [convert_data_types, convStep, hfil, hc, hok]

/-- C3 witness: concrete valid calls of the amended delegation statement:
the mean loop as the dictionary `fillna` call, de-duplication with a valid
subset, renaming, projection, datetime indexing and a single-column string
cast. -/
theorem C3_witness :
    (handle_missing_values ("fill_mean") none none ("linear")
        (procInit dfTwoNa)).st.df
      = pdFillnaDict (statDict meanValOfCol dfTwoNa) dfTwoNa ∧
    (remove_duplicate_rows (some [("A")]) KeepOpt.first stSample).st.df
      = pdDropDuplicates (some [("A")]) KeepOpt.first dfTwoNa ∧
    (rename_columns [(("A"), ("C"))] stSample).st.df
      = pdRename [(("A"), ("C"))] dfTwoNa ∧
    (select_columns [("B")] stSample).st.df = pdProject [("B")] dfTwoNa ∧
    (set_datetime_index ("A") ("coerce") true stSample).st.df
      = pdSetIndex ("A") [Val.na] (setCol dfTwoNa ("A") [Val.na]) ∧
    (convert_data_types [(("A"), ("str"))] ("raise") stSample).st.df
      = setCol dfTwoNa ("A") [Val.s ("nan")] :=
  ⟨C3_delegation.2.2.2.2.2.2.2.1 none ("linear") (procInit dfTwoNa) (by decide),
   C3_delegation.2.2.2.2.2.2.2.2.2.2.1 ("A") [] KeepOpt.first stSample (by decide),
   C3_delegation.2.2.2.2.2.2.2.2.2.2.2.1 [(("A"), ("C"))] stSample (by decide),
   C3_delegation.2.2.2.2.2.2.2.2.2.2.2.2.1 [("B")] stSample (by decide),
   C3_delegation.2.2.2.2.2.2.2.2.2.2.2.2.2.1 ("A") ("coerce") true stSample [Val.na]
     (by decide) rfl,
   C3_delegation.2.2.2.2.2.2.2.2.2.2.2.2.2.2 ("A") ("str") ("raise") stSample
     [Val.s ("nan")] (by decide) rfl⟩

end DataPrep
